import Mathlib

/-!
# Verification of the git-repository sync tool

Shallow embedding of `src/repo_manager.py` and the driver loop of
`src/main.py`.

The local git repository is modelled as an explicit state (`GitRepo`):
local branch heads with the commit they point at, the currently
checked-out branch, the registered remotes, the remote-tracking refs and
the tags.  Commits are natural numbers.  Every GitPython call that can
raise an exception is modelled as a function returning a `StepResult`,
which carries either a value or an error message, and in both cases the
repository state at that point (Python state mutations performed before
an exception persist).  The outcomes of external-world operations
(network fetch, pull, push, working-tree checkouts, branch deletion at
the filesystem level) are supplied by an environment record `Env`, so
that theorems quantify over every possible behaviour of the outside
world.

The GitHub side (`get_existing_github_repo`, `create_or_get_github_repo`)
is modelled with an explicit account state `GitHubState` (the hosted
repositories of the authenticated user) and an environment `GHEnv` for
network/auth outcomes.

Definition names follow the Python source where Lean allows it.
-/

/-- State of one local git working copy (the `git.Repo` object of
GitPython as used by `repo_manager.py`).  `heads` are the local branches
with the commit each points at; `active` is the checked-out branch
(`none` models a detached HEAD, where `repo.active_branch` raises);
`remotes` maps remote names to URLs; `remoteRefs` are the
remote-tracking refs, whose GitPython `.name` is of the form
`remote/branch`; `tags` are the tag names. -/
structure GitRepo where
  heads : List (String × Nat)
  active : Option String
  remotes : List (String × String)
  remoteRefs : List (String × Nat)
  tags : List String
deriving Repr, DecidableEq

/-- Result of one fallible repository operation: the Python call either
returns a value or raises; in both cases the repository state reached at
that point is kept (mutations made before the exception persist). -/
inductive StepResult (α : Type) where
  | ok (a : α) (s : GitRepo) : StepResult α
  | fail (msg : String) (s : GitRepo) : StepResult α
deriving Repr, DecidableEq

/-- Environment: outcome of every operation whose success depends on the
outside world (network, filesystem, working tree).  `fetchedRefs` is the
content of the remote-tracking refs after a successful `fetch`;
`pullCommit` is the commit a successful `pull` leaves the updated branch
at; `unmerged b` says whether branch `b` contains commits not merged
into the current branch (what makes a non-forced `git branch -d`
refuse). -/
structure Env where
  openOk : Bool
  fetchOk : Bool
  pullOk : Bool
  pushOk : Bool
  checkoutOk : String → Bool
  deleteOk : String → Bool
  unmerged : String → Bool
  fetchedRefs : List (String × Nat)
  pullCommit : Nat

/-- Names of the local branches (`repo.heads`, compared by name). -/
def headNames (s : GitRepo) : List String := s.heads.map Prod.fst

/-- Names of all references, as GitPython `repo.references` yields them:
local heads, remote-tracking refs (named `remote/branch`) and tags.
Used by `get_default_branch` (repo_manager.py line 36). -/
def referencesNames (s : GitRepo) : List String :=
  headNames s ++ s.remoteRefs.map Prod.fst ++ s.tags

/-- Names of the registered remotes (`[remote.name for remote in repo.remotes]`). -/
def remoteNames (s : GitRepo) : List String := s.remotes.map Prod.fst

/-- Remove the local branch `name` (state effect of a successful
`repo.delete_head(name, ...)`). -/
def removeHead (s : GitRepo) (name : String) : GitRepo :=
  { s with heads := s.heads.filter (fun p => p.1 != name) }

/-- Set the checked-out branch (state effect of a successful checkout). -/
def setActive (s : GitRepo) (name : String) : GitRepo :=
  { s with active := some name }

/-- Commit a name points at in a ref list (first match). -/
def lookupCommit (refs : List (String × Nat)) (name : String) : Option Nat :=
  (refs.find? (fun p => p.1 == name)).map Prod.snd

/-- Resolution of a revision string, as `git rev-parse` used by
`repo.create_head(name, commit=rev)`: local heads shadow remote-tracking
refs. -/
def resolveRev (s : GitRepo) (rev : String) : Option Nat :=
  match s.heads.find? (fun p => p.1 == rev) with
  | some p => some p.2
  | none => lookupCommit s.remoteRefs rev

/-- GitPython `repo.active_branch.name`: raises on a detached HEAD. -/
def activeBranchName (s : GitRepo) : StepResult String :=
  match s.active with
  | some n => StepResult.ok n s
  | none => StepResult.fail "HEAD is detached" s

/-- GitPython `repo.remote(name)`: returns the remote (its URL here),
raises `ValueError` when no remote of that name exists. -/
def getRemote (name : String) (s : GitRepo) : StepResult String :=
  match s.remotes.find? (fun p => p.1 == name) with
  | some p => StepResult.ok p.2 s
  | none => StepResult.fail "no such remote" s

/-- Checkout of a local branch: `repo.heads[name].checkout()`.  Fails
when no head of that name exists (the `repo.heads[name]` lookup raises)
or when the working-tree checkout itself fails (`env.checkoutOk`). -/
def checkout (env : Env) (name : String) (s : GitRepo) : StepResult Unit :=
  if name ∈ headNames s then
    if env.checkoutOk name then StepResult.ok () (setActive s name)
    else StepResult.fail "checkout failed" s
  else StepResult.fail "no such head" s

/-- GitPython `repo.delete_head(name, force=...)` (`git branch -d` /
`-D`): fails when the head does not exist, when it is the checked-out
branch, when `force` is off and the branch has unmerged commits, or on a
filesystem-level failure (`env.deleteOk`). -/
def delete_head (env : Env) (force : Bool) (name : String) (s : GitRepo) : StepResult Unit :=
  if name ∈ headNames s then
    if s.active = some name then StepResult.fail "cannot delete checked-out branch" s
    else if force || !env.unmerged name then
      if env.deleteOk name then StepResult.ok () (removeHead s name)
      else StepResult.fail "delete failed" s
    else StepResult.fail "branch is not fully merged" s
  else StepResult.fail "no such head" s

/-- GitPython `repo.create_head(name, commit=rev)` (`git branch name rev`):
fails when a head of that name already exists or when `rev` does not
resolve; otherwise creates the head at the resolved commit and returns
that commit. -/
def create_head (name rev : String) (s : GitRepo) : StepResult Nat :=
  if name ∈ headNames s then StepResult.fail "branch already exists" s
  else
    match resolveRev s rev with
    | some c => StepResult.ok c { s with heads := (name, c) :: s.heads }
    | none => StepResult.fail "bad revision" s

/-- `source.fetch()`: on success the remote-tracking refs hold the
fetched state supplied by the environment. -/
def fetch (env : Env) (s : GitRepo) : StepResult Unit :=
  if env.fetchOk then StepResult.ok () { s with remoteRefs := env.fetchedRefs }
  else StepResult.fail "fetch failed" s

/-- Destination branch of a refspec `src:dst`: the part after the first
colon (git branch names cannot contain a colon); a refspec without a
colon names the same source and destination. -/
def refspecDst (rs : String) : String :=
  if rs.toList.contains ':' then
    String.mk ((rs.toList.dropWhile (fun c => c != ':')).tail)
  else rs

/-- State effect of a successful `source.pull(refspec=...)`: the
destination branch of the refspec is moved to the pulled commit. -/
def pullEffect (env : Env) (rs : String) (s : GitRepo) : GitRepo :=
  { s with heads := s.heads.map (fun p => if p.1 = refspecDst rs then (p.1, env.pullCommit) else p) }

/-- `source.pull(refspec=rs)` (repo_manager.py line 91): fails on a
network error or a non-fast-forward merge (`env.pullOk`). -/
def pull (env : Env) (rs : String) (s : GitRepo) : StepResult Unit :=
  if env.pullOk then StepResult.ok () (pullEffect env rs s)
  else StepResult.fail "pull failed" s

/-- `target.push(branch)` (repo_manager.py line 96): no local state
change; fails on a network error or rejection (`env.pushOk`). -/
def push (env : Env) (_branch : String) (s : GitRepo) : StepResult Unit :=
  if env.pushOk then StepResult.ok () s
  else StepResult.fail "push failed" s

/-- `GitRepoManager.get_default_branch` (repo_manager.py lines 29-45).
The Python body first reads `repo.active_branch.name` (raises on a
detached HEAD, caught by the inner `except`, which returns the literal
`"main"`), then looks for `"main"` and `"master"` among the names of all
references (`repo.references`: heads, remote-tracking refs and tags),
and otherwise returns the active-branch name. -/
def get_default_branch (s : GitRepo) : String :=
  match s.active with
  | none => "main"
  | some ab =>
    if "main" ∈ referencesNames s then "main"
    else if "master" ∈ referencesNames s then "master"
    else ab

/-- Lines 60-62 of repo_manager.py, reached when the branch to delete is
the active one: resolve the default branch on the current state, check
it out (`repo.heads[default_branch].checkout()`, may raise), then
`repo.delete_head(name, force=True)`. -/
def deleteAfterCheckout (env : Env) (name : String) (s : GitRepo) : StepResult Unit :=
  match checkout env (get_default_branch s) s with
  | StepResult.fail m s1 => StepResult.fail m s1
  | StepResult.ok _ s1 => delete_head env true name s1

/-- Body of one iteration of the loop in
`GitRepoManager.cleanup_sync_branches` (repo_manager.py lines 55-62),
without the surrounding `try`: if the branch exists, read the active
branch (may raise), check out the resolved default branch when the
branch to delete is checked out, then delete the branch with force. -/
def cleanupBranch (env : Env) (name : String) (s : GitRepo) : StepResult Unit :=
  if name ∈ headNames s then
    match s.active with
    | none => StepResult.fail "HEAD is detached" s
    | some ab =>
      if ab = name then deleteAfterCheckout env name s
      else delete_head env true name s
  else StepResult.ok () s

/-- One loop iteration of `cleanup_sync_branches` including its
`try/except`: a failure is logged as a warning and swallowed, keeping
the state reached at the failure point. -/
def attemptCleanup (env : Env) (name : String) (s : GitRepo) : GitRepo :=
  match cleanupBranch env name s with
  | StepResult.ok _ s1 => s1
  | StepResult.fail _ s1 => s1

/-- `GitRepoManager.cleanup_sync_branches` (repo_manager.py lines 47-64):
best-effort removal of the transfer branches `"sync_temp"` and the
legacy `"sync_origin_github"`, in that order. -/
def cleanup_sync_branches (env : Env) (s : GitRepo) : GitRepo :=
  attemptCleanup env "sync_origin_github" (attemptCleanup env "sync_temp" s)

/-- Line 102 of repo_manager.py:
`repo.delete_head(temp_branch, force=True)`, with the state kept on a
failure (the surrounding `try` swallows it). -/
def syncCleanupDelete (env : Env) (s : GitRepo) : GitRepo :=
  match delete_head env true "sync_temp" s with
  | StepResult.fail _ s2 => s2
  | StepResult.ok _ s2 => s2

/-- Inner cleanup `try` of `sync_repository` (repo_manager.py lines
99-105): check out the default branch, delete the transfer branch with
force; any failure is logged as a warning and swallowed. -/
def syncCleanupStep (env : Env) (db : String) (s : GitRepo) : GitRepo :=
  match checkout env db s with
  | StepResult.fail _ s1 => s1
  | StepResult.ok _ s1 => syncCleanupDelete env s1

/-- Line 96 of repo_manager.py, `target.push(temp_branch)`, followed by
the best-effort restore-and-cleanup block (lines 98-105).  A push
failure raises (propagated to the outer `except`); on success the sync
reaches its normal end. -/
def syncStepPush (env : Env) (db : String) (s7 : GitRepo) : StepResult Unit :=
  match push env "sync_temp" s7 with
  | StepResult.fail m s => StepResult.fail m s
  | StepResult.ok _ s8 => StepResult.ok () (syncCleanupStep env db s8)

/-- Line 94 of repo_manager.py, `target = repo.remote(target_remote)`
(raises when the remote is absent), then the push step. -/
def syncStepTarget (env : Env) (tgt db : String) (s6 : GitRepo) : StepResult Unit :=
  match getRemote tgt s6 with
  | StepResult.fail m s => StepResult.fail m s
  | StepResult.ok _ s7 => syncStepPush env db s7

/-- Line 91 of repo_manager.py: `source.pull` with the refspec
`default_branch:temp_branch`, then the remaining steps. -/
def syncStepPull (env : Env) (tgt db : String) (s5 : GitRepo) : StepResult Unit :=
  match pull env (db ++ ":" ++ "sync_temp") s5 with
  | StepResult.fail m s => StepResult.fail m s
  | StepResult.ok _ s6 => syncStepTarget env tgt db s6

/-- Line 88 of repo_manager.py, `current.checkout()` of the freshly
created transfer branch, then the remaining steps. -/
def syncStepCheckout (env : Env) (tgt db : String) (s4 : GitRepo) : StepResult Unit :=
  match checkout env "sync_temp" s4 with
  | StepResult.fail m s => StepResult.fail m s
  | StepResult.ok _ s5 => syncStepPull env tgt db s5

/-- Steps of `sync_repository` from branch creation on (repo_manager.py
lines 87-105): create the transfer branch pointing at the fetched remote
ref named `source_remote/default_branch` (`repo.create_head` with the
`commit=` keyword), then check it out, pull, push and clean up. -/
def syncFromCreate (env : Env) (src tgt db : String) (s3 : GitRepo) : StepResult Unit :=
  match create_head "sync_temp" (src ++ "/" ++ db) s3 with
  | StepResult.fail m s => StepResult.fail m s
  | StepResult.ok _ s4 => syncStepCheckout env tgt db s4

/-- Line 84 of repo_manager.py, `source.fetch()`, then the remaining
steps. -/
def syncStepFetch (env : Env) (src tgt db : String) (s2 : GitRepo) : StepResult Unit :=
  match fetch env s2 with
  | StepResult.fail m s => StepResult.fail m s
  | StepResult.ok _ s3 => syncFromCreate env src tgt db s3

/-- Steps of `sync_repository` after default-branch detection and stale
cleanup (repo_manager.py lines 82-105): obtain the source remote
(`repo.remote(source_remote)`, raises when absent), fetch, then continue
from branch creation. -/
def syncCore (env : Env) (src tgt db : String) (s1 : GitRepo) : StepResult Unit :=
  match getRemote src s1 with
  | StepResult.fail m s => StepResult.fail m s
  | StepResult.ok _ s2 => syncStepFetch env src tgt db s2

/-- Body of the outer `try` of `GitRepoManager.sync_repository`
(repo_manager.py lines 69-105): resolve the default branch from the
initial state, run the stale-branch cleanup, then the core steps. -/
def syncBody (env : Env) (src tgt : String) (s0 : GitRepo) : StepResult Unit :=
  syncCore env src tgt (get_default_branch s0) (cleanup_sync_branches env s0)

/-- `GitRepoManager.sync_repository` (repo_manager.py lines 66-108).
`env.openOk` models whether `Repo(repo_path)` succeeds.  The outer
`except` catches every exception, logs it and returns, keeping the
repository state reached at the failure point. -/
def sync_repository (env : Env) (src tgt : String) (s0 : GitRepo) : GitRepo :=
  if env.openOk then
    match syncBody env src tgt s0 with
    | StepResult.ok _ s => s
    | StepResult.fail _ s => s
  else s0

/-- Hosted repositories of the authenticated GitHub account:
(name, clone URL) pairs. -/
structure GitHubState where
  repos : List (String × String)
deriving Repr, DecidableEq

/-- Environment for the GitHub API: whether lookup calls reach the
service (`lookupOk`), whether repository creation succeeds for a free
name (`createOk`), and the clone URL GitHub assigns to a newly created
repository. -/
structure GHEnv where
  lookupOk : Bool
  createOk : Bool
  cloneUrlOf : String → String

/-- Hosted repository of a given name, if any (first match). -/
def ghFind (gh : GitHubState) (name : String) : Option (String × String) :=
  gh.repos.find? (fun p => p.1 == name)

/-- `GitRepoManager.get_existing_github_repo` (repo_manager.py lines
110-115): `get_user().get_repo(name)`, with every exception (404 for a
missing repository, network or auth failure alike) caught and turned
into `None`. -/
def get_existing_github_repo (env : GHEnv) (gh : GitHubState) (name : String) :
    Option (String × String) :=
  if env.lookupOk then ghFind gh name else none

/-- Remote-registration step of `create_or_get_github_repo`
(repo_manager.py lines 136-146): add a remote named `"github"` pointing
at `url` only when no remote of that name exists. -/
def addGithubRemote (r : GitRepo) (url : String) : GitRepo :=
  if "github" ∈ remoteNames r then r
  else { r with remotes := r.remotes ++ [("github", url)] }

/-- `GitRepoManager.create_or_get_github_repo` (repo_manager.py lines
117-152): look the repository up; when absent, create it (creation
raises when the name is already taken on the account, which happens when
the lookup failed for network reasons; the outer `except` then returns
`None`); finally register the `"github"` remote when absent.  Returns
the hosted repository (name, clone URL), the updated local repository
and the updated account state. -/
def create_or_get_github_repo (env : GHEnv) (name : String) (r : GitRepo) (gh : GitHubState) :
    Option (String × String) × GitRepo × GitHubState :=
  match get_existing_github_repo env gh name with
  | some ghRepo => (some ghRepo, addGithubRemote r ghRepo.2, gh)
  | none =>
    if (ghFind gh name).isSome then (none, r, gh)
    else if env.createOk then
      let ghRepo := (name, env.cloneUrlOf name)
      (some ghRepo, addGithubRemote r ghRepo.2, { repos := ghRepo :: gh.repos })
    else (none, r, gh)

/-- One discovered repository as the driver sees it, with the
environment governing its external operations. -/
structure TaskCtx where
  name : String
  repo : GitRepo
  gitEnv : Env
  ghEnv : GHEnv

/-- Per-repository outcome reported by the driver. -/
inductive RepoOutcome where
  | skipped
  | synced
deriving Repr, DecidableEq

/-- Driver body for one repository (main.py lines 40-52): provision,
then sync only when provisioning returned a repository. -/
def processRepo (t : TaskCtx) (gh : GitHubState) : RepoOutcome × GitRepo × GitHubState :=
  match create_or_get_github_repo t.ghEnv t.name t.repo gh with
  | (some _, r1, gh1) => (RepoOutcome.synced, sync_repository t.gitEnv "origin" "github" r1, gh1)
  | (none, r1, gh1) => (RepoOutcome.skipped, r1, gh1)

/-- Driver loop of `main` (main.py lines 40-52), threading the GitHub
account state through the repositories in discovery order. -/
def mainLoop : List TaskCtx → GitHubState → List (RepoOutcome × GitRepo) × GitHubState
  | [], gh => ([], gh)
  | t :: ts, gh =>
    let (o, r, gh1) := processRepo t gh
    let (rest, gh2) := mainLoop ts gh1
    ((o, r) :: rest, gh2)

/-! ## Basic state lemmas -/

@[simp]
theorem headNames_setActive (s : GitRepo) (n : String) :
    headNames (setActive s n) = headNames s := rfl

@[simp]
theorem active_setActive (s : GitRepo) (n : String) :
    (setActive s n).active = some n := rfl

@[simp]
theorem remotes_setActive (s : GitRepo) (n : String) :
    (setActive s n).remotes = s.remotes := rfl

@[simp]
theorem remoteRefs_setActive (s : GitRepo) (n : String) :
    (setActive s n).remoteRefs = s.remoteRefs := rfl

@[simp]
theorem tags_setActive (s : GitRepo) (n : String) :
    (setActive s n).tags = s.tags := rfl

@[simp]
theorem active_removeHead (s : GitRepo) (n : String) :
    (removeHead s n).active = s.active := rfl

@[simp]
theorem remotes_removeHead (s : GitRepo) (n : String) :
    (removeHead s n).remotes = s.remotes := rfl

@[simp]
theorem remoteRefs_removeHead (s : GitRepo) (n : String) :
    (removeHead s n).remoteRefs = s.remoteRefs := rfl

@[simp]
theorem tags_removeHead (s : GitRepo) (n : String) :
    (removeHead s n).tags = s.tags := rfl

theorem mem_headNames_removeHead {s : GitRepo} {n m : String} :
    n ∈ headNames (removeHead s m) ↔ n ∈ headNames s ∧ n ≠ m := by
  simp only [headNames, removeHead, List.mem_map, List.mem_filter, bne_iff_ne]
  constructor
  · rintro ⟨p, ⟨hp, hne⟩, rfl⟩
    exact ⟨⟨p, hp, rfl⟩, hne⟩
  · rintro ⟨⟨p, hp, rfl⟩, hne⟩
    exact ⟨p, ⟨hp, hne⟩, rfl⟩

theorem headNames_pullEffect (env : Env) (rs : String) (s : GitRepo) :
    headNames (pullEffect env rs s) = headNames s := by
  show (s.heads.map _).map Prod.fst = s.heads.map Prod.fst
  generalize s.heads = l
  induction l with
  | nil => rfl
  | cons p t ih =>
    simp only [List.map_cons, ih]
    congr 1
    split <;> rfl

@[simp]
theorem active_pullEffect (env : Env) (rs : String) (s : GitRepo) :
    (pullEffect env rs s).active = s.active := rfl

@[simp]
theorem remotes_pullEffect (env : Env) (rs : String) (s : GitRepo) :
    (pullEffect env rs s).remotes = s.remotes := rfl

@[simp]
theorem remoteRefs_pullEffect (env : Env) (rs : String) (s : GitRepo) :
    (pullEffect env rs s).remoteRefs = s.remoteRefs := rfl

@[simp]
theorem referencesNames_setActive (s : GitRepo) (n : String) :
    referencesNames (setActive s n) = referencesNames s := rfl

theorem mem_referencesNames_removeHead {s : GitRepo} {x m : String} (h : x ≠ m) :
    x ∈ referencesNames (removeHead s m) ↔ x ∈ referencesNames s := by
  simp only [referencesNames, List.mem_append, remoteRefs_removeHead, tags_removeHead,
    mem_headNames_removeHead]
  tauto

/-! ## Inversion and computation lemmas for the repository operations -/

theorem getRemote_ok {n : String} {s : GitRepo} {u : String} {s' : GitRepo}
    (h : getRemote n s = StepResult.ok u s') : s' = s := by
  unfold getRemote at h
  split at h
  · injection h with h1 h2
    exact h2.symm
  · cases h

theorem getRemote_of_mem {n : String} {s : GitRepo} (h : n ∈ remoteNames s) :
    ∃ u, getRemote n s = StepResult.ok u s := by
  simp only [remoteNames, List.mem_map] at h
  obtain ⟨p, hp, hpn⟩ := h
  unfold getRemote
  rcases hfind : s.remotes.find? (fun q => q.1 == n) with _ | q
  · rw [List.find?_eq_none] at hfind
    exact absurd (by simpa using hpn) (by simpa using hfind p hp)
  · rw [hfind]
    exact ⟨q.2, rfl⟩

theorem checkout_ok {env : Env} {n : String} {s : GitRepo} {u : Unit} {s' : GitRepo}
    (h : checkout env n s = StepResult.ok u s') :
    s' = setActive s n ∧ n ∈ headNames s ∧ env.checkoutOk n = true := by
  unfold checkout at h
  by_cases hm : n ∈ headNames s
  · rw [if_pos hm] at h
    by_cases hc : env.checkoutOk n = true
    · rw [if_pos hc] at h
      injection h with h1 h2
      exact ⟨h2.symm, hm, hc⟩
    · rw [if_neg hc] at h
      cases h
  · rw [if_neg hm] at h
    cases h

theorem checkout_of_ok {env : Env} {n : String} {s : GitRepo}
    (hm : n ∈ headNames s) (hc : env.checkoutOk n = true) :
    checkout env n s = StepResult.ok () (setActive s n) := by
  unfold checkout
  rw [if_pos hm, if_pos hc]

theorem checkout_state_cases (env : Env) (n : String) (s : GitRepo) :
    checkout env n s = StepResult.ok () (setActive s n) ∨
    ∃ m, checkout env n s = StepResult.fail m s := by
  unfold checkout
  by_cases hm : n ∈ headNames s
  · rw [if_pos hm]
    by_cases hc : env.checkoutOk n = true
    · rw [if_pos hc]
      exact Or.inl rfl
    · rw [if_neg hc]
      exact Or.inr ⟨_, rfl⟩
  · rw [if_neg hm]
    exact Or.inr ⟨_, rfl⟩

theorem delete_head_ok {env : Env} {force : Bool} {n : String} {s : GitRepo} {u : Unit} {s' : GitRepo}
    (h : delete_head env force n s = StepResult.ok u s') :
    s' = removeHead s n ∧ n ∈ headNames s ∧ s.active ≠ some n ∧ env.deleteOk n = true := by
  unfold delete_head at h
  by_cases hm : n ∈ headNames s
  · rw [if_pos hm] at h
    by_cases ha : s.active = some n
    · rw [if_pos ha] at h
      cases h
    · rw [if_neg ha] at h
      by_cases hf : (force || !env.unmerged n) = true
      · rw [if_pos hf] at h
        by_cases hd : env.deleteOk n = true
        · rw [if_pos hd] at h
          injection h with h1 h2
          exact ⟨h2.symm, hm, ha, hd⟩
        · rw [if_neg hd] at h
          cases h
      · rw [if_neg hf] at h
        cases h
  · rw [if_neg hm] at h
    cases h

theorem delete_head_force_ok {env : Env} {n : String} {s : GitRepo}
    (hm : n ∈ headNames s) (ha : s.active ≠ some n) (hd : env.deleteOk n = true) :
    delete_head env true n s = StepResult.ok () (removeHead s n) := by
  unfold delete_head
  rw [if_pos hm, if_neg ha, if_pos (by simp), if_pos hd]

theorem delete_head_state_cases (env : Env) (force : Bool) (n : String) (s : GitRepo) :
    delete_head env force n s = StepResult.ok () (removeHead s n) ∨
    ∃ m, delete_head env force n s = StepResult.fail m s := by
  unfold delete_head
  by_cases hm : n ∈ headNames s
  · rw [if_pos hm]
    by_cases ha : s.active = some n
    · rw [if_pos ha]
      exact Or.inr ⟨_, rfl⟩
    · rw [if_neg ha]
      by_cases hf : (force || !env.unmerged n) = true
      · rw [if_pos hf]
        by_cases hd : env.deleteOk n = true
        · rw [if_pos hd]
          exact Or.inl rfl
        · rw [if_neg hd]
          exact Or.inr ⟨_, rfl⟩
      · rw [if_neg hf]
        exact Or.inr ⟨_, rfl⟩
  · rw [if_neg hm]
    exact Or.inr ⟨_, rfl⟩

theorem create_head_ok {n rev : String} {s : GitRepo} {c : Nat} {s' : GitRepo}
    (h : create_head n rev s = StepResult.ok c s') :
    n ∉ headNames s ∧ resolveRev s rev = some c ∧
      s' = { s with heads := (n, c) :: s.heads } := by
  unfold create_head at h
  by_cases hm : n ∈ headNames s
  · rw [if_pos hm] at h
    cases h
  · rw [if_neg hm] at h
    rcases hres : resolveRev s rev with _ | c0
    · rw [hres] at h
      cases h
    · rw [hres] at h
      injection h with h1 h2
      subst h1
      exact ⟨hm, rfl, h2.symm⟩

theorem fetch_ok {env : Env} {s : GitRepo} {u : Unit} {s' : GitRepo}
    (h : fetch env s = StepResult.ok u s') :
    env.fetchOk = true ∧ s' = { s with remoteRefs := env.fetchedRefs } := by
  unfold fetch at h
  by_cases hf : env.fetchOk = true
  · rw [if_pos hf] at h
    injection h with h1 h2
    exact ⟨hf, h2.symm⟩
  · rw [if_neg hf] at h
    cases h

theorem fetch_of_ok {env : Env} (s : GitRepo) (hf : env.fetchOk = true) :
    fetch env s = StepResult.ok () { s with remoteRefs := env.fetchedRefs } := by
  unfold fetch
  rw [if_pos hf]

theorem pull_ok {env : Env} {rs : String} {s : GitRepo} {u : Unit} {s' : GitRepo}
    (h : pull env rs s = StepResult.ok u s') :
    env.pullOk = true ∧ s' = pullEffect env rs s := by
  unfold pull at h
  by_cases hp : env.pullOk = true
  · rw [if_pos hp] at h
    injection h with h1 h2
    exact ⟨hp, h2.symm⟩
  · rw [if_neg hp] at h
    cases h

theorem pull_of_ok {env : Env} (rs : String) (s : GitRepo) (hp : env.pullOk = true) :
    pull env rs s = StepResult.ok () (pullEffect env rs s) := by
  unfold pull
  rw [if_pos hp]

theorem push_ok {env : Env} {b : String} {s : GitRepo} {u : Unit} {s' : GitRepo}
    (h : push env b s = StepResult.ok u s') : s' = s := by
  unfold push at h
  by_cases hp : env.pushOk = true
  · rw [if_pos hp] at h
    injection h with h1 h2
    exact h2.symm
  · rw [if_neg hp] at h
    cases h

theorem push_of_ok {env : Env} (b : String) (s : GitRepo) (hp : env.pushOk = true) :
    push env b s = StepResult.ok () s := by
  unfold push
  rw [if_pos hp]


/-! ## Equation lemmas exposing the control flow -/

theorem get_default_branch_none {s : GitRepo} (h : s.active = none) :
    get_default_branch s = "main" := by
  unfold get_default_branch
  rw [h]

theorem get_default_branch_some {s : GitRepo} {ab : String} (h : s.active = some ab) :
    get_default_branch s =
      if "main" ∈ referencesNames s then "main"
      else if "master" ∈ referencesNames s then "master"
      else ab := by
  unfold get_default_branch
  rw [h]

theorem attemptCleanup_eq_ok {env : Env} {name : String} {s : GitRepo} {u : Unit} {s1 : GitRepo}
    (h : cleanupBranch env name s = StepResult.ok u s1) :
    attemptCleanup env name s = s1 := by
  unfold attemptCleanup
  rw [h]

theorem attemptCleanup_eq_fail {env : Env} {name : String} {s : GitRepo} {m : String} {s1 : GitRepo}
    (h : cleanupBranch env name s = StepResult.fail m s1) :
    attemptCleanup env name s = s1 := by
  unfold attemptCleanup
  rw [h]

theorem cleanupBranch_notmem {env : Env} {name : String} {s : GitRepo}
    (hm : name ∉ headNames s) : cleanupBranch env name s = StepResult.ok () s := by
  unfold cleanupBranch
  rw [if_neg hm]

theorem cleanupBranch_detached {env : Env} {name : String} {s : GitRepo}
    (hm : name ∈ headNames s) (h : s.active = none) :
    cleanupBranch env name s = StepResult.fail "HEAD is detached" s := by
  unfold cleanupBranch
  rw [if_pos hm, h]

theorem cleanupBranch_on_branch {env : Env} {name : String} {s : GitRepo}
    (hm : name ∈ headNames s) (h : s.active = some name) :
    cleanupBranch env name s = deleteAfterCheckout env name s := by
  unfold cleanupBranch
  rw [if_pos hm, h]
  show (if name = name then deleteAfterCheckout env name s
    else delete_head env true name s) = deleteAfterCheckout env name s
  rw [if_pos rfl]

theorem cleanupBranch_off_branch {env : Env} {name : String} {s : GitRepo} {ab : String}
    (hm : name ∈ headNames s) (h : s.active = some ab) (hne : ab ≠ name) :
    cleanupBranch env name s = delete_head env true name s := by
  unfold cleanupBranch
  rw [if_pos hm, h]
  show (if ab = name then deleteAfterCheckout env name s
    else delete_head env true name s) = delete_head env true name s
  rw [if_neg hne]

theorem deleteAfterCheckout_co_ok {env : Env} {name : String} {s : GitRepo} {u : Unit} {s1 : GitRepo}
    (h : checkout env (get_default_branch s) s = StepResult.ok u s1) :
    deleteAfterCheckout env name s = delete_head env true name s1 := by
  unfold deleteAfterCheckout
  rw [h]

theorem deleteAfterCheckout_co_fail {env : Env} {name : String} {s : GitRepo} {m : String} {s1 : GitRepo}
    (h : checkout env (get_default_branch s) s = StepResult.fail m s1) :
    deleteAfterCheckout env name s = StepResult.fail m s1 := by
  unfold deleteAfterCheckout
  rw [h]

theorem syncCleanupDelete_del_ok {env : Env} {s : GitRepo} {u : Unit} {s2 : GitRepo}
    (h : delete_head env true "sync_temp" s = StepResult.ok u s2) :
    syncCleanupDelete env s = s2 := by
  unfold syncCleanupDelete
  rw [h]

theorem syncCleanupDelete_del_fail {env : Env} {s : GitRepo} {m : String} {s2 : GitRepo}
    (h : delete_head env true "sync_temp" s = StepResult.fail m s2) :
    syncCleanupDelete env s = s2 := by
  unfold syncCleanupDelete
  rw [h]

theorem syncCleanupStep_co_ok {env : Env} {db : String} {s : GitRepo} {u : Unit} {s1 : GitRepo}
    (h : checkout env db s = StepResult.ok u s1) :
    syncCleanupStep env db s = syncCleanupDelete env s1 := by
  unfold syncCleanupStep
  rw [h]

theorem syncCleanupStep_co_fail {env : Env} {db : String} {s : GitRepo} {m : String} {s1 : GitRepo}
    (h : checkout env db s = StepResult.fail m s1) :
    syncCleanupStep env db s = s1 := by
  unfold syncCleanupStep
  rw [h]

theorem syncStepPush_ok {env : Env} {db : String} {s7 : GitRepo} {u : Unit} {s8 : GitRepo}
    (h : push env "sync_temp" s7 = StepResult.ok u s8) :
    syncStepPush env db s7 = StepResult.ok () (syncCleanupStep env db s8) := by
  unfold syncStepPush
  rw [h]

theorem syncStepPush_fail {env : Env} {db : String} {s7 : GitRepo} {m : String} {s : GitRepo}
    (h : push env "sync_temp" s7 = StepResult.fail m s) :
    syncStepPush env db s7 = StepResult.fail m s := by
  unfold syncStepPush
  rw [h]

theorem syncStepTarget_ok {env : Env} {tgt db : String} {s6 : GitRepo} {u : String} {s7 : GitRepo}
    (h : getRemote tgt s6 = StepResult.ok u s7) :
    syncStepTarget env tgt db s6 = syncStepPush env db s7 := by
  unfold syncStepTarget
  rw [h]

theorem syncStepTarget_fail {env : Env} {tgt db : String} {s6 : GitRepo} {m : String} {s : GitRepo}
    (h : getRemote tgt s6 = StepResult.fail m s) :
    syncStepTarget env tgt db s6 = StepResult.fail m s := by
  unfold syncStepTarget
  rw [h]

theorem syncStepPull_ok {env : Env} {tgt db : String} {s5 : GitRepo} {u : Unit} {s6 : GitRepo}
    (h : pull env (db ++ ":" ++ "sync_temp") s5 = StepResult.ok u s6) :
    syncStepPull env tgt db s5 = syncStepTarget env tgt db s6 := by
  unfold syncStepPull
  rw [h]

theorem syncStepPull_fail {env : Env} {tgt db : String} {s5 : GitRepo} {m : String} {s : GitRepo}
    (h : pull env (db ++ ":" ++ "sync_temp") s5 = StepResult.fail m s) :
    syncStepPull env tgt db s5 = StepResult.fail m s := by
  unfold syncStepPull
  rw [h]

theorem syncStepCheckout_ok {env : Env} {tgt db : String} {s4 : GitRepo} {u : Unit} {s5 : GitRepo}
    (h : checkout env "sync_temp" s4 = StepResult.ok u s5) :
    syncStepCheckout env tgt db s4 = syncStepPull env tgt db s5 := by
  unfold syncStepCheckout
  rw [h]

theorem syncStepCheckout_fail {env : Env} {tgt db : String} {s4 : GitRepo} {m : String} {s : GitRepo}
    (h : checkout env "sync_temp" s4 = StepResult.fail m s) :
    syncStepCheckout env tgt db s4 = StepResult.fail m s := by
  unfold syncStepCheckout
  rw [h]

theorem syncFromCreate_ok {env : Env} {src tgt db : String} {s3 : GitRepo} {c : Nat} {s4 : GitRepo}
    (h : create_head "sync_temp" (src ++ "/" ++ db) s3 = StepResult.ok c s4) :
    syncFromCreate env src tgt db s3 = syncStepCheckout env tgt db s4 := by
  unfold syncFromCreate
  rw [h]

theorem syncFromCreate_fail {env : Env} {src tgt db : String} {s3 : GitRepo} {m : String} {s : GitRepo}
    (h : create_head "sync_temp" (src ++ "/" ++ db) s3 = StepResult.fail m s) :
    syncFromCreate env src tgt db s3 = StepResult.fail m s := by
  unfold syncFromCreate
  rw [h]

theorem syncStepFetch_ok {env : Env} {src tgt db : String} {s2 : GitRepo} {u : Unit} {s3 : GitRepo}
    (h : fetch env s2 = StepResult.ok u s3) :
    syncStepFetch env src tgt db s2 = syncFromCreate env src tgt db s3 := by
  unfold syncStepFetch
  rw [h]

theorem syncStepFetch_fail {env : Env} {src tgt db : String} {s2 : GitRepo} {m : String} {s : GitRepo}
    (h : fetch env s2 = StepResult.fail m s) :
    syncStepFetch env src tgt db s2 = StepResult.fail m s := by
  unfold syncStepFetch
  rw [h]

theorem syncCore_src_ok {env : Env} {src tgt db : String} {s1 : GitRepo} {u : String} {s2 : GitRepo}
    (h : getRemote src s1 = StepResult.ok u s2) :
    syncCore env src tgt db s1 = syncStepFetch env src tgt db s2 := by
  unfold syncCore
  rw [h]

theorem syncCore_src_fail {env : Env} {src tgt db : String} {s1 : GitRepo} {m : String} {s : GitRepo}
    (h : getRemote src s1 = StepResult.fail m s) :
    syncCore env src tgt db s1 = StepResult.fail m s := by
  unfold syncCore
  rw [h]

theorem sync_repository_of_ok {env : Env} {src tgt : String} {s0 : GitRepo} {u : Unit} {s : GitRepo}
    (hopen : env.openOk = true) (h : syncBody env src tgt s0 = StepResult.ok u s) :
    sync_repository env src tgt s0 = s := by
  unfold sync_repository
  rw [if_pos hopen, h]

theorem sync_repository_of_fail {env : Env} {src tgt : String} {s0 : GitRepo} {m : String} {s : GitRepo}
    (hopen : env.openOk = true) (h : syncBody env src tgt s0 = StepResult.fail m s) :
    sync_repository env src tgt s0 = s := by
  unfold sync_repository
  rw [if_pos hopen, h]

/-! ## State-shape lemmas -/

@[simp]
theorem headNames_withRefs (s : GitRepo) (X : List (String × Nat)) :
    headNames { s with remoteRefs := X } = headNames s := rfl

@[simp]
theorem active_withRefs (s : GitRepo) (X : List (String × Nat)) :
    ({ s with remoteRefs := X } : GitRepo).active = s.active := rfl

@[simp]
theorem remotes_withRefs (s : GitRepo) (X : List (String × Nat)) :
    ({ s with remoteRefs := X } : GitRepo).remotes = s.remotes := rfl

@[simp]
theorem headNames_consHead (s : GitRepo) (n : String) (c : Nat) :
    headNames { s with heads := (n, c) :: s.heads } = n :: headNames s := rfl

@[simp]
theorem active_consHead (s : GitRepo) (n : String) (c : Nat) :
    ({ s with heads := (n, c) :: s.heads } : GitRepo).active = s.active := rfl

@[simp]
theorem remotes_consHead (s : GitRepo) (n : String) (c : Nat) :
    ({ s with heads := (n, c) :: s.heads } : GitRepo).remotes = s.remotes := rfl

theorem deleteAfterCheckout_state_cases (env : Env) (name : String) (s : GitRepo) :
    deleteAfterCheckout env name s =
      delete_head env true name (setActive s (get_default_branch s)) ∨
    ∃ m, deleteAfterCheckout env name s = StepResult.fail m s := by
  rcases checkout_state_cases env (get_default_branch s) s with hco | ⟨m, hco⟩
  · exact Or.inl (deleteAfterCheckout_co_ok hco)
  · exact Or.inr ⟨m, deleteAfterCheckout_co_fail hco⟩

theorem cleanupBranch_state_cases (env : Env) (name : String) (s : GitRepo) :
    (∃ u, cleanupBranch env name s = StepResult.ok u s) ∨
    (∃ m, cleanupBranch env name s = StepResult.fail m s) ∨
    (∃ m, cleanupBranch env name s =
      StepResult.fail m (setActive s (get_default_branch s))) ∨
    cleanupBranch env name s = StepResult.ok () (removeHead s name) ∨
    cleanupBranch env name s =
      StepResult.ok () (removeHead (setActive s (get_default_branch s)) name) := by
  by_cases hm : name ∈ headNames s
  · rcases hact : s.active with _ | ab
    · exact Or.inr (Or.inl ⟨_, cleanupBranch_detached hm hact⟩)
    · by_cases hab : ab = name
      · have hact2 : s.active = some name := by rw [hact, hab]
        rw [cleanupBranch_on_branch hm hact2]
        rcases deleteAfterCheckout_state_cases env name s with hd | ⟨m, hd⟩
        · rw [hd]
          rcases delete_head_state_cases env true name
            (setActive s (get_default_branch s)) with he | ⟨m, he⟩
          · exact Or.inr (Or.inr (Or.inr (Or.inr he)))
          · exact Or.inr (Or.inr (Or.inl ⟨m, he⟩))
        · exact Or.inr (Or.inl ⟨m, hd⟩)
      · rw [cleanupBranch_off_branch hm hact hab]
        rcases delete_head_state_cases env true name s with he | ⟨m, he⟩
        · exact Or.inr (Or.inr (Or.inr (Or.inl he)))
        · exact Or.inr (Or.inl ⟨m, he⟩)
  · exact Or.inl ⟨(), cleanupBranch_notmem hm⟩

theorem attemptCleanup_cases (env : Env) (name : String) (s : GitRepo) :
    attemptCleanup env name s = s ∨
    attemptCleanup env name s = setActive s (get_default_branch s) ∨
    attemptCleanup env name s = removeHead s name ∨
    attemptCleanup env name s = removeHead (setActive s (get_default_branch s)) name := by
  rcases cleanupBranch_state_cases env name s with ⟨u, h⟩ | ⟨m, h⟩ | ⟨m, h⟩ | h | h
  · exact Or.inl (attemptCleanup_eq_ok h)
  · exact Or.inl (attemptCleanup_eq_fail h)
  · exact Or.inr (Or.inl (attemptCleanup_eq_fail h))
  · exact Or.inr (Or.inr (Or.inl (attemptCleanup_eq_ok h)))
  · exact Or.inr (Or.inr (Or.inr (attemptCleanup_eq_ok h)))

theorem attemptCleanup_mem {env : Env} {name : String} {s : GitRepo} {n : String}
    (h : n ≠ name) :
    n ∈ headNames (attemptCleanup env name s) ↔ n ∈ headNames s := by
  rcases attemptCleanup_cases env name s with hc | hc | hc | hc <;> rw [hc]
  · rw [headNames_setActive]
  · rw [mem_headNames_removeHead]
    exact and_iff_left h
  · rw [mem_headNames_removeHead, headNames_setActive]
    exact and_iff_left h

theorem attemptCleanup_remotes (env : Env) (name : String) (s : GitRepo) :
    (attemptCleanup env name s).remotes = s.remotes := by
  rcases attemptCleanup_cases env name s with hc | hc | hc | hc <;> rw [hc] <;> simp

theorem attemptCleanup_active_cases (env : Env) (name : String) (s : GitRepo) :
    (attemptCleanup env name s).active = s.active ∨
    (attemptCleanup env name s).active = some (get_default_branch s) := by
  rcases attemptCleanup_cases env name s with hc | hc | hc | hc <;> rw [hc]
  · exact Or.inl rfl
  · exact Or.inr (by rw [active_setActive])
  · exact Or.inl (by rw [active_removeHead])
  · exact Or.inr (by rw [active_removeHead, active_setActive])

theorem attemptCleanup_of_active_none {env : Env} {name : String} {s : GitRepo}
    (h : s.active = none) : attemptCleanup env name s = s := by
  by_cases hm : name ∈ headNames s
  · exact attemptCleanup_eq_fail (cleanupBranch_detached hm h)
  · exact attemptCleanup_eq_ok (cleanupBranch_notmem hm)

theorem attemptCleanup_removes {env : Env} {name : String} {s : GitRepo} {ab : String}
    (hab : s.active = some ab)
    (hdel : env.deleteOk name = true)
    (hcheck : ab = name → env.checkoutOk (get_default_branch s) = true ∧
      get_default_branch s ∈ headNames s ∧ get_default_branch s ≠ name) :
    name ∉ headNames (attemptCleanup env name s) := by
  by_cases hm : name ∈ headNames s
  · by_cases habn : ab = name
    · have hact2 : s.active = some name := by rw [hab, habn]
      obtain ⟨hc1, hc2, hc3⟩ := hcheck habn
      have heq : cleanupBranch env name s =
          StepResult.ok () (removeHead (setActive s (get_default_branch s)) name) := by
        rw [cleanupBranch_on_branch hm hact2,
          deleteAfterCheckout_co_ok (checkout_of_ok hc2 hc1)]
        exact delete_head_force_ok
          (by rw [headNames_setActive]; exact hm)
          (by rw [active_setActive]; intro hx; exact hc3 (Option.some.inj hx))
          hdel
      rw [attemptCleanup_eq_ok heq, mem_headNames_removeHead]
      simp
    · have heq : cleanupBranch env name s = StepResult.ok () (removeHead s name) := by
        rw [cleanupBranch_off_branch hm hab habn]
        exact delete_head_force_ok hm
          (by rw [hab]; intro hx; exact habn (Option.some.inj hx)) hdel
      rw [attemptCleanup_eq_ok heq, mem_headNames_removeHead]
      simp
  · rw [attemptCleanup_eq_ok (cleanupBranch_notmem hm)]
    exact hm

theorem get_default_branch_congr {s s1 : GitRepo} {ab : String}
    (hab : s.active = some ab)
    (hact : s1.active = some ab ∨ s1.active = some (get_default_branch s))
    (hmain : ("main" ∈ referencesNames s1) ↔ ("main" ∈ referencesNames s))
    (hmaster : ("master" ∈ referencesNames s1) ↔ ("master" ∈ referencesNames s)) :
    get_default_branch s1 = get_default_branch s := by
  rcases hact with h | h
  · rw [get_default_branch_some h, get_default_branch_some hab]
    by_cases hm : "main" ∈ referencesNames s
    · rw [if_pos hm, if_pos (hmain.mpr hm)]
    · rw [if_neg hm, if_neg (fun hx => hm (hmain.mp hx))]
      by_cases hms : "master" ∈ referencesNames s
      · rw [if_pos hms, if_pos (hmaster.mpr hms)]
      · rw [if_neg hms, if_neg (fun hx => hms (hmaster.mp hx))]
  · rw [get_default_branch_some h]
    by_cases hm : "main" ∈ referencesNames s
    · rw [if_pos (hmain.mpr hm), get_default_branch_some hab, if_pos hm]
    · rw [if_neg (fun hx => hm (hmain.mp hx))]
      by_cases hms : "master" ∈ referencesNames s
      · rw [if_pos (hmaster.mpr hms), get_default_branch_some hab, if_neg hm, if_pos hms]
      · rw [if_neg (fun hx => hms (hmaster.mp hx))]

theorem get_default_branch_attemptCleanup {env : Env} {name : String} {s : GitRepo}
    (h1 : name ≠ "main") (h2 : name ≠ "master") :
    get_default_branch (attemptCleanup env name s) = get_default_branch s := by
  rcases hact : s.active with _ | ab
  · rw [attemptCleanup_of_active_none hact]
  · rcases attemptCleanup_cases env name s with hc | hc | hc | hc
    · rw [hc]
    · rw [hc]
      exact get_default_branch_congr hact (Or.inr (by rw [active_setActive]))
        (by rw [referencesNames_setActive]) (by rw [referencesNames_setActive])
    · rw [hc]
      exact get_default_branch_congr hact (Or.inl (by rw [active_removeHead]; exact hact))
        (mem_referencesNames_removeHead (Ne.symm h1))
        (mem_referencesNames_removeHead (Ne.symm h2))
    · rw [hc]
      exact get_default_branch_congr hact (Or.inr (by rw [active_removeHead, active_setActive]))
        (by rw [mem_referencesNames_removeHead (Ne.symm h1), referencesNames_setActive])
        (by rw [mem_referencesNames_removeHead (Ne.symm h2), referencesNames_setActive])

/-! ## Composite lemmas for the whole cleanup and sync -/

theorem cleanup_mem {env : Env} {s : GitRepo} {n : String}
    (h1 : n ≠ "sync_temp") (h2 : n ≠ "sync_origin_github") :
    n ∈ headNames (cleanup_sync_branches env s) ↔ n ∈ headNames s := by
  unfold cleanup_sync_branches
  rw [attemptCleanup_mem h2, attemptCleanup_mem h1]

theorem cleanup_remotes (env : Env) (s : GitRepo) :
    (cleanup_sync_branches env s).remotes = s.remotes := by
  unfold cleanup_sync_branches
  rw [attemptCleanup_remotes, attemptCleanup_remotes]

theorem cleanup_removes {env : Env} {s : GitRepo} {ab : String}
    (hab : s.active = some ab)
    (hdb : get_default_branch s ∈ headNames s)
    (h1 : get_default_branch s ≠ "sync_temp")
    (h2 : get_default_branch s ≠ "sync_origin_github")
    (hco : env.checkoutOk (get_default_branch s) = true)
    (hdelT : env.deleteOk "sync_temp" = true)
    (hdelO : env.deleteOk "sync_origin_github" = true) :
    "sync_temp" ∉ headNames (cleanup_sync_branches env s) ∧
    "sync_origin_github" ∉ headNames (cleanup_sync_branches env s) := by
  have hstep1 : "sync_temp" ∉ headNames (attemptCleanup env "sync_temp" s) :=
    attemptCleanup_removes hab hdelT (fun _ => ⟨hco, hdb, h1⟩)
  set sMid := attemptCleanup env "sync_temp" s with hsMid
  have hgdbMid : get_default_branch sMid = get_default_branch s :=
    get_default_branch_attemptCleanup (by decide) (by decide)
  have hdbMid : get_default_branch sMid ∈ headNames sMid := by
    rw [hgdbMid, hsMid, attemptCleanup_mem h1]
    exact hdb
  obtain ⟨ab2, hab2⟩ : ∃ ab2, sMid.active = some ab2 := by
    rcases attemptCleanup_active_cases env "sync_temp" s with h | h
    · exact ⟨ab, by rw [hsMid, h, hab]⟩
    · exact ⟨get_default_branch s, by rw [hsMid, h]⟩
  have hstep2 : "sync_origin_github" ∉
      headNames (attemptCleanup env "sync_origin_github" sMid) :=
    attemptCleanup_removes hab2 hdelO
      (fun _ => ⟨by rw [hgdbMid]; exact hco, hdbMid, by rw [hgdbMid]; exact h2⟩)
  constructor
  · show "sync_temp" ∉ headNames (attemptCleanup env "sync_origin_github" sMid)
    rw [attemptCleanup_mem (by decide : ("sync_temp" : String) ≠ "sync_origin_github")]
    exact hstep1
  · exact hstep2

theorem syncCleanupStep_active {env : Env} {db : String} {s : GitRepo}
    (hmem : db ∈ headNames s) (hco : env.checkoutOk db = true) :
    (syncCleanupStep env db s).active = some db := by
  rw [syncCleanupStep_co_ok (checkout_of_ok hmem hco)]
  rcases delete_head_state_cases env true "sync_temp" (setActive s db) with hd | ⟨m, hd⟩
  · rw [syncCleanupDelete_del_ok hd, active_removeHead, active_setActive]
  · rw [syncCleanupDelete_del_fail hd, active_setActive]

theorem syncCleanupStep_full {env : Env} {db : String} {s : GitRepo}
    (hmem : db ∈ headNames s) (hco : env.checkoutOk db = true)
    (hne : db ≠ "sync_temp") (htmp : "sync_temp" ∈ headNames s)
    (hdel : env.deleteOk "sync_temp" = true) :
    syncCleanupStep env db s = removeHead (setActive s db) "sync_temp" := by
  rw [syncCleanupStep_co_ok (checkout_of_ok hmem hco)]
  exact syncCleanupDelete_del_ok (delete_head_force_ok
    (by rw [headNames_setActive]; exact htmp)
    (by rw [active_setActive]; intro hx; exact hne (Option.some.inj hx))
    hdel)

theorem syncCore_ok_shape {env : Env} {src tgt db : String} {s1 : GitRepo} {sf : GitRepo}
    (h : syncCore env src tgt db s1 = StepResult.ok () sf) :
    ∃ s8 : GitRepo,
      sf = syncCleanupStep env db s8 ∧
      s8.active = some "sync_temp" ∧
      headNames s8 = "sync_temp" :: headNames s1 ∧
      "sync_temp" ∉ headNames s1 ∧
      s8.remotes = s1.remotes := by
  rcases hgr : getRemote src s1 with ⟨a, s2⟩ | ⟨m, sx⟩
  case fail =>
    rw [syncCore_src_fail hgr] at h
    cases h
  case ok =>
  have hs2 : s2 = s1 := getRemote_ok hgr
  rw [syncCore_src_ok hgr] at h
  rcases hf : fetch env s2 with ⟨a2, s3⟩ | ⟨m2, sx2⟩
  case fail =>
    rw [syncStepFetch_fail hf] at h
    cases h
  case ok =>
  have hs3 : s3 = { s2 with remoteRefs := env.fetchedRefs } := (fetch_ok hf).2
  rw [syncStepFetch_ok hf] at h
  rcases hch : create_head "sync_temp" (src ++ "/" ++ db) s3 with ⟨c, s4⟩ | ⟨m3, sx3⟩
  case fail =>
    rw [syncFromCreate_fail hch] at h
    cases h
  case ok =>
  obtain ⟨hmem3, hres3, hs4⟩ := create_head_ok hch
  rw [syncFromCreate_ok hch] at h
  rcases hco : checkout env "sync_temp" s4 with ⟨a4, s5⟩ | ⟨m4, sx4⟩
  case fail =>
    rw [syncStepCheckout_fail hco] at h
    cases h
  case ok =>
  obtain ⟨hs5, hmem4, hcok⟩ := checkout_ok hco
  rw [syncStepCheckout_ok hco] at h
  rcases hp : pull env (db ++ ":" ++ "sync_temp") s5 with ⟨a5, s6⟩ | ⟨m5, sx5⟩
  case fail =>
    rw [syncStepPull_fail hp] at h
    cases h
  case ok =>
  have hs6 : s6 = pullEffect env (db ++ ":" ++ "sync_temp") s5 := (pull_ok hp).2
  rw [syncStepPull_ok hp] at h
  rcases hgt : getRemote tgt s6 with ⟨a6, s7⟩ | ⟨m6, sx6⟩
  case fail =>
    rw [syncStepTarget_fail hgt] at h
    cases h
  case ok =>
  have hs7 : s7 = s6 := getRemote_ok hgt
  rw [syncStepTarget_ok hgt] at h
  rcases hpu : push env "sync_temp" s7 with ⟨a7, s8⟩ | ⟨m7, sx7⟩
  case fail =>
    rw [syncStepPush_fail hpu] at h
    cases h
  case ok =>
  have hs8 : s8 = s7 := push_ok hpu
  rw [syncStepPush_ok hpu] at h
  injection h with h1 h2
  refine ⟨s8, h2.symm, ?_, ?_, ?_, ?_⟩
  · rw [hs8, hs7, hs6, active_pullEffect, hs5, active_setActive]
  · rw [hs8, hs7, hs6, headNames_pullEffect, hs5, headNames_setActive, hs4,
      headNames_consHead, hs3, headNames_withRefs, hs2]
  · rw [hs3, headNames_withRefs, hs2] at hmem3
    exact hmem3
  · rw [hs8, hs7, hs6, remotes_pullEffect, hs5, remotes_setActive, hs4,
      remotes_consHead, hs3, remotes_withRefs, hs2]

/-! ## Concrete fixtures used by witnesses and counterexamples -/

/-- Environment in which every external operation succeeds; the fetch
delivers `origin/main` at commit 7. -/
def envAllOk : Env :=
  { openOk := true, fetchOk := true, pullOk := true, pushOk := true,
    checkoutOk := fun _ => true, deleteOk := fun _ => true, unmerged := fun _ => false,
    fetchedRefs := [("origin/main", 7)], pullCommit := 7 }

/-- Environment in which everything succeeds except the pull step. -/
def envPullFail : Env := { envAllOk with pullOk := false }

/-- A healthy repository: one branch `main`, checked out, with `origin`
and `github` remotes. -/
def repoBase : GitRepo :=
  { heads := [("main", 0)], active := some "main",
    remotes := [("origin", "urlA"), ("github", "urlB")], remoteRefs := [], tags := [] }

/-- State of `repoBase` after a fully successful sync: back on `main`,
transfer branch gone, remote-tracking refs updated by the fetch. -/
def repoFinal : GitRepo := { repoBase with remoteRefs := [("origin/main", 7)] }

/-- A repository left checked out on the transfer branch `sync_temp` by
a crashed previous run. -/
def repoStale : GitRepo :=
  { heads := [("sync_temp", 3), ("main", 0)], active := some "sync_temp",
    remotes := [("origin", "urlA"), ("github", "urlB")], remoteRefs := [], tags := [] }

/-- A repository with branches `master` and `feature` and a tag named
`main`. -/
def repoTagMain : GitRepo :=
  { heads := [("master", 0), ("feature", 1)], active := some "feature",
    remotes := [], remoteRefs := [], tags := ["main"] }

/-! ## Claim C1 -/

/-- C1 (counterexample): the claimed invariant — the active branch
equals the default branch whenever control returns to the driver, on
success or on any failure — is false.  Concretely, when the pull step
fails after the transfer branch has been checked out, the outer
exception handler of `sync_repository` returns with the repository still
checked out on `sync_temp`, a transfer branch, while the resolved
default branch is `main`. -/
theorem c1_invariant_counterexample :
    (sync_repository envPullFail "origin" "github" repoBase).active = some "sync_temp" ∧
    get_default_branch repoBase = "main" ∧
    (sync_repository envPullFail "origin" "github" repoBase).active ≠ some "main" := by
  decide

/-- C1 (amended): the invariant holds on the success path.  Whenever the
sync body completes without error, the resolved default branch exists as
a local branch, is not one of the transfer-branch names, and its
working-tree checkout succeeds, the repository is returned checked out
on the resolved default branch — never on a transfer branch.  On a
mid-sync failure the repository may instead be left on the transfer
branch (see the counterexample). -/
theorem c1_active_branch_restored_on_success :
    ∀ (env : Env) (src tgt : String) (s0 sf : GitRepo),
      syncBody env src tgt s0 = StepResult.ok () sf →
      get_default_branch s0 ∈ headNames s0 →
      get_default_branch s0 ≠ "sync_temp" →
      get_default_branch s0 ≠ "sync_origin_github" →
      env.checkoutOk (get_default_branch s0) = true →
      sf.active = some (get_default_branch s0) ∧
      sf.active ≠ some "sync_temp" ∧ sf.active ≠ some "sync_origin_github" := by
  intro env src tgt s0 sf h hdb h1 h2 hco
  unfold syncBody at h
  obtain ⟨s8, hsf, hact8, hheads8, hnm, hrem⟩ := syncCore_ok_shape h
  have hdb8 : get_default_branch s0 ∈ headNames s8 := by
    rw [hheads8]
    exact List.mem_cons_of_mem _ ((cleanup_mem h1 h2).mpr hdb)
  have hres : sf.active = some (get_default_branch s0) := by
    rw [hsf]
    exact syncCleanupStep_active hdb8 hco
  refine ⟨hres, ?_, ?_⟩
  · rw [hres]
    intro hx
    exact h1 (Option.some.inj hx)
  · rw [hres]
    intro hx
    exact h2 (Option.some.inj hx)

/-- C1 (witness): the amended theorem applied to a concrete fully
successful run. -/
theorem c1_active_branch_restored_on_success_witness :
    repoFinal.active = some (get_default_branch repoBase) ∧
    repoFinal.active ≠ some "sync_temp" ∧ repoFinal.active ≠ some "sync_origin_github" :=
  c1_active_branch_restored_on_success envAllOk "origin" "github" repoBase repoFinal
    (by decide) (by decide) (by decide) (by decide) (by decide)

/-! ## Claim C2 -/

/-- C2 (counterexample): the claim says resolution returns `master`
whenever no local branch `main` exists but a local branch `master` does.
The code instead scans the names of all references
(`repo.references`: local branches, remote-tracking refs and tags), so a
tag named `main` wins over the `master` branch: on a repository with
branches `master` and `feature`, active branch `feature` and a tag
`main`, resolution returns `main`, not `master`. -/
theorem c2_resolution_counterexample :
    get_default_branch repoTagMain = "main" ∧
    "master" ∈ headNames repoTagMain ∧
    "main" ∉ headNames repoTagMain ∧
    repoTagMain.active = some "feature" ∧
    get_default_branch repoTagMain ≠ "master" := by
  decide

/-- C2 (amended): when the active branch is readable, resolution
returns `main` whenever any reference (local branch, remote-tracking
ref or tag) named `main` exists, else `master` whenever a reference
named `master` exists, else the active-branch name; when reading the
active branch fails (detached HEAD), it returns the literal `main`.  In
particular a repository with branch set consisting of `master` and
`feature` only (and no other reference named `main` or `master`)
resolves to `master`. -/
theorem c2_default_branch_resolution_amended :
    (∀ (r : GitRepo) (ab : String), r.active = some ab →
      get_default_branch r =
        (if "main" ∈ referencesNames r then "main"
         else if "master" ∈ referencesNames r then "master"
         else ab)) ∧
    (∀ r : GitRepo, r.active = none → get_default_branch r = "main") ∧
    get_default_branch { repoTagMain with tags := [] } = "master" := by
  refine ⟨?_, ?_, by decide⟩
  · intro r ab h
    exact get_default_branch_some h
  · intro r h
    exact get_default_branch_none h

/-- C2 (witness): the amended characterisation applied to a concrete
repository holding both `main` and `master` branches. -/
theorem c2_default_branch_resolution_amended_witness :
    get_default_branch
        { heads := [("master", 0), ("main", 3), ("feature", 1)], active := some "feature",
          remotes := [], remoteRefs := [], tags := [] } =
      (if "main" ∈ referencesNames
          { heads := [("master", 0), ("main", 3), ("feature", 1)], active := some "feature",
            remotes := [], remoteRefs := [], tags := [] } then "main"
       else if "master" ∈ referencesNames
          { heads := [("master", 0), ("main", 3), ("feature", 1)], active := some "feature",
            remotes := [], remoteRefs := [], tags := [] } then "master"
       else "feature") :=
  c2_default_branch_resolution_amended.1 _ "feature" rfl

/-! ## Claim C5 -/

/-- C5: a repository checked out on a leftover transfer branch
(`sync_temp` or the legacy `sync_origin_github`) self-heals: when the
Sync call completes (the sync body returns without error), the resolved
default branch exists, is not itself a transfer-branch name, its
checkout succeeds and branch deletion succeeds, the repository ends
checked out on the resolved default branch with the leftover branch
deleted from the branch set. -/
theorem c5_stale_transfer_branch_selfheal :
    ∀ (env : Env) (src tgt : String) (s0 sf : GitRepo) (tb : String),
      s0.active = some tb →
      (tb = "sync_temp" ∨ tb = "sync_origin_github") →
      syncBody env src tgt s0 = StepResult.ok () sf →
      get_default_branch s0 ∈ headNames s0 →
      get_default_branch s0 ≠ "sync_temp" →
      get_default_branch s0 ≠ "sync_origin_github" →
      env.checkoutOk (get_default_branch s0) = true →
      env.deleteOk "sync_temp" = true →
      env.deleteOk "sync_origin_github" = true →
      sf.active = some (get_default_branch s0) ∧ tb ∉ headNames sf := by
  intro env src tgt s0 sf tb hab htb h hdb h1 h2 hco hdT hdO
  unfold syncBody at h
  obtain ⟨s8, hsf, hact8, hheads8, hnm, hrem⟩ := syncCore_ok_shape h
  obtain ⟨hcleanT, hcleanO⟩ := cleanup_removes hab hdb h1 h2 hco hdT hdO
  have hdb8 : get_default_branch s0 ∈ headNames s8 := by
    rw [hheads8]
    exact List.mem_cons_of_mem _ ((cleanup_mem h1 h2).mpr hdb)
  have htmp8 : "sync_temp" ∈ headNames s8 := by
    rw [hheads8]
    exact List.mem_cons_self _ _
  have hfull : syncCleanupStep env (get_default_branch s0) s8 =
      removeHead (setActive s8 (get_default_branch s0)) "sync_temp" :=
    syncCleanupStep_full hdb8 hco h1 htmp8 hdT
  rw [hsf, hfull]
  constructor
  · rw [active_removeHead, active_setActive]
  · rw [mem_headNames_removeHead, headNames_setActive, hheads8]
    rcases htb with rfl | rfl
    · simp
    · rintro ⟨hmem, hne⟩
      rcases List.mem_cons.mp hmem with he | hmem2
      · exact absurd he (by decide)
      · exact hcleanO hmem2

/-- C5 (witness): the theorem applied to a concrete repository left on
`sync_temp` by a crash, with a fully successful environment. -/
theorem c5_stale_transfer_branch_selfheal_witness :
    repoFinal.active = some (get_default_branch repoStale) ∧
    "sync_temp" ∉ headNames repoFinal :=
  c5_stale_transfer_branch_selfheal envAllOk "origin" "github" repoStale repoFinal
    "sync_temp" rfl (Or.inl rfl) (by decide) (by decide) (by decide) (by decide)
    (by decide) (by decide) (by decide)

/-! ## Claim C6 -/

/-- C6: after a fully successful Sync call (the sync body returns
without error, the default branch exists, is not a transfer-branch
name, the active branch was readable at the start, and the restore
checkout and the branch deletions succeed), the branch set contains
neither `sync_temp` nor `sync_origin_github`, and the active branch is
the resolved default branch. -/
theorem c6_transfer_branch_nonpersistence :
    ∀ (env : Env) (src tgt : String) (s0 sf : GitRepo) (ab : String),
      syncBody env src tgt s0 = StepResult.ok () sf →
      s0.active = some ab →
      get_default_branch s0 ∈ headNames s0 →
      get_default_branch s0 ≠ "sync_temp" →
      get_default_branch s0 ≠ "sync_origin_github" →
      env.checkoutOk (get_default_branch s0) = true →
      env.deleteOk "sync_temp" = true →
      env.deleteOk "sync_origin_github" = true →
      sf.active = some (get_default_branch s0) ∧
      "sync_temp" ∉ headNames sf ∧
      "sync_origin_github" ∉ headNames sf := by
  intro env src tgt s0 sf ab h hab hdb h1 h2 hco hdT hdO
  unfold syncBody at h
  obtain ⟨s8, hsf, hact8, hheads8, hnm, hrem⟩ := syncCore_ok_shape h
  obtain ⟨hcleanT, hcleanO⟩ := cleanup_removes hab hdb h1 h2 hco hdT hdO
  have hdb8 : get_default_branch s0 ∈ headNames s8 := by
    rw [hheads8]
    exact List.mem_cons_of_mem _ ((cleanup_mem h1 h2).mpr hdb)
  have htmp8 : "sync_temp" ∈ headNames s8 := by
    rw [hheads8]
    exact List.mem_cons_self _ _
  have hfull : syncCleanupStep env (get_default_branch s0) s8 =
      removeHead (setActive s8 (get_default_branch s0)) "sync_temp" :=
    syncCleanupStep_full hdb8 hco h1 htmp8 hdT
  rw [hsf, hfull]
  refine ⟨?_, ?_, ?_⟩
  · rw [active_removeHead, active_setActive]
  · rw [mem_headNames_removeHead]
    simp
  · rw [mem_headNames_removeHead, headNames_setActive, hheads8]
    rintro ⟨hmem, hne⟩
    rcases List.mem_cons.mp hmem with he | hmem2
    · exact absurd he (by decide)
    · exact hcleanO hmem2

/-- C6 (witness): the theorem applied to a concrete fully successful
run starting from a healthy repository. -/
theorem c6_transfer_branch_nonpersistence_witness :
    repoFinal.active = some (get_default_branch repoBase) ∧
    "sync_temp" ∉ headNames repoFinal ∧
    "sync_origin_github" ∉ headNames repoFinal :=
  c6_transfer_branch_nonpersistence envAllOk "origin" "github" repoBase repoFinal
    "main" (by decide) rfl (by decide) (by decide) (by decide) (by decide)
    (by decide) (by decide)

/-! ## Further helpers -/

theorem mem_remoteNames_congr {a b : GitRepo} {n : String} (h : a.remotes = b.remotes) :
    n ∈ remoteNames a ↔ n ∈ remoteNames b := by
  unfold remoteNames
  rw [h]

theorem heads_find_eq_none {s : GitRepo} {rev : String} (h : rev ∉ headNames s) :
    s.heads.find? (fun p => p.1 == rev) = none := by
  rw [List.find?_eq_none]
  intro p hp he
  exact h (List.mem_map.mpr ⟨p, hp, eq_of_beq he⟩)

theorem resolveRev_of_not_head {s : GitRepo} {rev : String} (h : rev ∉ headNames s) :
    resolveRev s rev = lookupCommit s.remoteRefs rev := by
  unfold resolveRev
  rw [heads_find_eq_none h]

/-! ## Claim C4 -/

/-- C4: no exception reaches the driver loop.  In the embedding an
exception is a `StepResult.fail` value; `sync_repository` (whose outer
`except` catches everything) converts any failure of its body into a
normal return carrying the state reached at the failure point, and
`create_or_get_github_repo` is a total function returning `none` on
failure, so the driver loop processes every discovered repository: the
outcome list of `mainLoop` has exactly one entry per repository,
whatever each repository's environment does. -/
theorem c4_no_exception_reaches_driver :
    (∀ (env : Env) (src tgt : String) (s0 : GitRepo) (m : String) (s1 : GitRepo),
      env.openOk = true →
      syncBody env src tgt s0 = StepResult.fail m s1 →
      sync_repository env src tgt s0 = s1) ∧
    (∀ (ts : List TaskCtx) (gh : GitHubState),
      ((mainLoop ts gh).1).length = ts.length) := by
  constructor
  · intro env src tgt s0 m s1 ho h
    exact sync_repository_of_fail ho h
  · intro ts
    induction ts with
    | nil =>
      intro gh
      rfl
    | cons t ts ih =>
      intro gh
      show (((processRepo t gh).1, (processRepo t gh).2.1) ::
        (mainLoop ts (processRepo t gh).2.2).1).length = ts.length + 1
      rw [List.length_cons, ih]

/-- A repository with no remotes: the sync body fails at the
source-remote lookup. -/
def repoNoRemote : GitRepo :=
  { heads := [("main", 0)], active := some "main",
    remotes := [], remoteRefs := [], tags := [] }

/-- GitHub environment in which lookup and creation both work. -/
def ghEnvOk : GHEnv :=
  { lookupOk := true, createOk := true, cloneUrlOf := fun n => String.append "url-" n }

/-- A concrete driver task. -/
def taskA : TaskCtx :=
  { name := "proj", repo := repoBase, gitEnv := envAllOk, ghEnv := ghEnvOk }

/-- C4 (witness): a concrete failing sync returns normally with the
failure-point state, and a concrete two-repository run produces two
outcomes. -/
theorem c4_no_exception_reaches_driver_witness :
    sync_repository envAllOk "origin" "github" repoNoRemote = repoNoRemote ∧
    ((mainLoop [taskA, taskA] { repos := [] }).1).length = 2 :=
  ⟨c4_no_exception_reaches_driver.1 envAllOk "origin" "github" repoNoRemote
      "no such remote" repoNoRemote rfl (by decide),
    c4_no_exception_reaches_driver.2 [taskA, taskA] { repos := [] }⟩

/-! ## Claim C8 -/

/-- C8: in every Sync call that reaches the branch-creation step (the
source remote exists and the fetch succeeds), the sync continues from
`syncFromCreate` on the post-fetch state, and the transfer branch
`sync_temp` is created pointing at the commit of the fetched remote ref
named `src/defaultBranch` — looked up in the fetched remote-tracking
refs, independent of the local default branch head — and is then
checked out. -/
theorem c8_transfer_branch_from_fetched_ref :
    ∀ (env : Env) (src tgt : String) (s0 : GitRepo),
      env.fetchOk = true →
      src ∈ remoteNames (cleanup_sync_branches env s0) →
      (src ++ "/" ++ get_default_branch s0) ∉ headNames (cleanup_sync_branches env s0) →
      (syncBody env src tgt s0 =
        syncFromCreate env src tgt (get_default_branch s0)
          { cleanup_sync_branches env s0 with remoteRefs := env.fetchedRefs }) ∧
      ∀ (c : Nat) (s4 : GitRepo),
        create_head "sync_temp" (src ++ "/" ++ get_default_branch s0)
            { cleanup_sync_branches env s0 with remoteRefs := env.fetchedRefs } =
          StepResult.ok c s4 →
        lookupCommit env.fetchedRefs (src ++ "/" ++ get_default_branch s0) = some c ∧
        s4.heads = ("sync_temp", c) ::
          ({ cleanup_sync_branches env s0 with remoteRefs := env.fetchedRefs } : GitRepo).heads ∧
        (env.checkoutOk "sync_temp" = true →
          checkout env "sync_temp" s4 = StepResult.ok () (setActive s4 "sync_temp")) := by
  intro env src tgt s0 hfOk hsrc hrev
  constructor
  · obtain ⟨u, hgr⟩ := getRemote_of_mem hsrc
    unfold syncBody
    rw [syncCore_src_ok hgr, syncStepFetch_ok (fetch_of_ok _ hfOk)]
  · intro c s4 hch
    obtain ⟨hnm, hres, hs4⟩ := create_head_ok hch
    have hrev2 : (src ++ "/" ++ get_default_branch s0) ∉
        headNames { cleanup_sync_branches env s0 with remoteRefs := env.fetchedRefs } := by
      rw [headNames_withRefs]
      exact hrev
    rw [resolveRev_of_not_head hrev2] at hres
    refine ⟨hres, ?_, ?_⟩
    · rw [hs4]
    · intro hcok
      have hmem : "sync_temp" ∈ headNames s4 := by
        rw [hs4, headNames_consHead]
        exact List.mem_cons_self _ _
      exact checkout_of_ok hmem hcok

/-- C8 (witness): on a concrete run the transfer branch is created at
commit 7, the commit of the fetched ref `origin/main`, not at commit 0
where the local `main` stands. -/
theorem c8_transfer_branch_from_fetched_ref_witness :
    (syncBody envAllOk "origin" "github" repoBase =
      syncFromCreate envAllOk "origin" "github" (get_default_branch repoBase)
        { cleanup_sync_branches envAllOk repoBase with remoteRefs := envAllOk.fetchedRefs }) ∧
    lookupCommit envAllOk.fetchedRefs
      ("origin" ++ "/" ++ get_default_branch repoBase) = some 7 :=
  ⟨(c8_transfer_branch_from_fetched_ref envAllOk "origin" "github" repoBase
      rfl (by decide) (by decide)).1,
    ((c8_transfer_branch_from_fetched_ref envAllOk "origin" "github" repoBase
      rfl (by decide) (by decide)).2 7
      { cleanup_sync_branches envAllOk repoBase with
          remoteRefs := envAllOk.fetchedRefs,
          heads := ("sync_temp", 7) :: (cleanup_sync_branches envAllOk repoBase).heads }
      (by decide)).1⟩

/-! ## Claim C9 -/

/-- C9: once the branch creation, checkout, pull and push steps all
succeed, `syncFromCreate` returns `StepResult.ok` with the state
produced by the best-effort cleanup — for every environment, including
those in which the restore checkout of the default branch or the
transfer-branch deletion fails.  A cleanup failure therefore never
escalates into a sync error. -/
theorem c9_cleanup_failure_not_escalated :
    ∀ (env : Env) (src tgt db : String) (s3 : GitRepo) (c : Nat) (s4 s5 : GitRepo),
      create_head "sync_temp" (src ++ "/" ++ db) s3 = StepResult.ok c s4 →
      checkout env "sync_temp" s4 = StepResult.ok () s5 →
      env.pullOk = true → env.pushOk = true →
      tgt ∈ remoteNames s3 →
      syncFromCreate env src tgt db s3 =
        StepResult.ok ()
          (syncCleanupStep env db (pullEffect env (db ++ ":" ++ "sync_temp") s5)) := by
  intro env src tgt db s3 c s4 s5 hch hco hpull hpush htgt
  obtain ⟨hs5, _, _⟩ := checkout_ok hco
  obtain ⟨_, _, hs4⟩ := create_head_ok hch
  have hremotes : (pullEffect env (db ++ ":" ++ "sync_temp") s5).remotes = s3.remotes := by
    rw [remotes_pullEffect, hs5, remotes_setActive, hs4, remotes_consHead]
  obtain ⟨u, hgt⟩ := getRemote_of_mem ((mem_remoteNames_congr hremotes).mpr htgt)
  rw [syncFromCreate_ok hch, syncStepCheckout_ok hco,
    syncStepPull_ok (pull_of_ok _ _ hpull), syncStepTarget_ok hgt,
    syncStepPush_ok (push_of_ok _ _ hpush)]

/-- Environment in which the transfer steps succeed but both cleanup
operations fail: the restore checkout works only for `sync_temp`, and
every branch deletion fails. -/
def envCleanupFail : Env :=
  { openOk := true, fetchOk := true, pullOk := true, pushOk := true,
    checkoutOk := fun b => b == "sync_temp", deleteOk := fun _ => false,
    unmerged := fun _ => false, fetchedRefs := [("origin/main", 7)], pullCommit := 7 }

/-- State of `repoBase` after fetch and creation of the transfer branch
at the fetched commit 7. -/
def repoTemp : GitRepo := { repoFinal with heads := [("sync_temp", 7), ("main", 0)] }

/-- C9 (witness): a concrete run in which the restore checkout of
`main` and the deletion of `sync_temp` both fail, yet the sync from the
creation step on still returns `StepResult.ok`. -/
theorem c9_cleanup_failure_not_escalated_witness :
    syncFromCreate envCleanupFail "origin" "github" "main" repoFinal =
      StepResult.ok ()
        (syncCleanupStep envCleanupFail "main"
          (pullEffect envCleanupFail ("main" ++ ":" ++ "sync_temp")
            (setActive repoTemp "sync_temp"))) :=
  c9_cleanup_failure_not_escalated envCleanupFail "origin" "github" "main" repoFinal
    7 repoTemp (setActive repoTemp "sync_temp") (by decide) (by decide) rfl rfl (by decide)

/-! ## Claim C10 -/

/-- C10: every transfer-branch deletion is performed with force, so it
succeeds even when the branch holds commits not merged into the current
branch.  First conjunct: a forced deletion succeeds (removing the
branch) regardless of `unmerged`.  Second: without force the same
deletion would fail with the not-fully-merged error, so the `force=True`
at both call sites is what makes the difference.  Third: the post-sync
cleanup (`syncCleanupStep`, repo_manager.py line 102) removes
`sync_temp` even when `sync_temp` is unmerged.  Fourth: one stale-branch
cleanup iteration (`cleanup_sync_branches`, line 62) removes the branch
even when it is unmerged. -/
theorem c10_transfer_branch_deleted_with_force :
    (∀ (env : Env) (name : String) (s : GitRepo),
      env.unmerged name = true → env.deleteOk name = true →
      name ∈ headNames s → s.active ≠ some name →
      delete_head env true name s = StepResult.ok () (removeHead s name)) ∧
    (∀ (env : Env) (name : String) (s : GitRepo),
      env.unmerged name = true →
      name ∈ headNames s → s.active ≠ some name →
      delete_head env false name s = StepResult.fail "branch is not fully merged" s) ∧
    (∀ (env : Env) (db : String) (s : GitRepo),
      env.unmerged "sync_temp" = true →
      env.deleteOk "sync_temp" = true → env.checkoutOk db = true →
      db ∈ headNames s → db ≠ "sync_temp" → "sync_temp" ∈ headNames s →
      "sync_temp" ∉ headNames (syncCleanupStep env db s)) ∧
    (∀ (env : Env) (name : String) (s : GitRepo) (ab : String),
      env.unmerged name = true →
      s.active = some ab → env.deleteOk name = true →
      (ab = name → env.checkoutOk (get_default_branch s) = true ∧
        get_default_branch s ∈ headNames s ∧ get_default_branch s ≠ name) →
      name ∉ headNames (attemptCleanup env name s)) := by
  refine ⟨?_, ?_, ?_, ?_⟩
  · intro env name s _ hdel hm hact
    exact delete_head_force_ok hm hact hdel
  · intro env name s hunm hm hact
    unfold delete_head
    rw [if_pos hm, if_neg hact, hunm, if_neg (by decide)]
  · intro env db s _ hdel hcok hdbm hne htmp
    rw [syncCleanupStep_full hdbm hcok hne htmp hdel, mem_headNames_removeHead,
      headNames_setActive]
    simp
  · intro env name s ab _ hab hdel hcheck
    exact attemptCleanup_removes hab hdel hcheck

/-- A repository with an extra branch `feat` holding unmerged work. -/
def repoFeat : GitRepo :=
  { heads := [("main", 0), ("feat", 5)], active := some "main",
    remotes := [], remoteRefs := [], tags := [] }

/-- Environment in which every branch is reported as holding unmerged
commits. -/
def envUnmerged : Env := { envAllOk with unmerged := fun _ => true }

/-- C10 (witness): on a concrete unmerged branch, the forced deletion
used by the code succeeds while the unforced variant would fail. -/
theorem c10_transfer_branch_deleted_with_force_witness :
    delete_head envUnmerged true "feat" repoFeat =
      StepResult.ok () (removeHead repoFeat "feat") ∧
    delete_head envUnmerged false "feat" repoFeat =
      StepResult.fail "branch is not fully merged" repoFeat :=
  ⟨c10_transfer_branch_deleted_with_force.1 envUnmerged "feat" repoFeat
      rfl rfl (by decide) (by decide),
    c10_transfer_branch_deleted_with_force.2.1 envUnmerged "feat" repoFeat
      rfl (by decide) (by decide)⟩

/-! ## Lemmas on provisioning -/

theorem get_existing_of_lookupOk {env : GHEnv} {gh : GitHubState} {name : String}
    (h : env.lookupOk = true) :
    get_existing_github_repo env gh name = ghFind gh name := by
  unfold get_existing_github_repo
  rw [if_pos h]

theorem get_existing_of_lookupFail {env : GHEnv} {gh : GitHubState} {name : String}
    (h : ¬env.lookupOk = true) :
    get_existing_github_repo env gh name = none := by
  unfold get_existing_github_repo
  rw [if_neg h]

theorem get_existing_none_of_find_none {env : GHEnv} {gh : GitHubState} {name : String}
    (h : ghFind gh name = none) :
    get_existing_github_repo env gh name = none := by
  unfold get_existing_github_repo
  by_cases hlk : env.lookupOk = true
  · rw [if_pos hlk]
    exact h
  · rw [if_neg hlk]

theorem create_or_get_found {env : GHEnv} {name : String} {r : GitRepo} {gh : GitHubState}
    {p : String × String} (h : get_existing_github_repo env gh name = some p) :
    create_or_get_github_repo env name r gh = (some p, addGithubRemote r p.2, gh) := by
  unfold create_or_get_github_repo
  rw [h]

theorem create_or_get_taken {env : GHEnv} {name : String} {r : GitRepo} {gh : GitHubState}
    (h : get_existing_github_repo env gh name = none)
    (h2 : (ghFind gh name).isSome = true) :
    create_or_get_github_repo env name r gh = (none, r, gh) := by
  unfold create_or_get_github_repo
  rw [h, if_pos h2]

theorem create_or_get_create {env : GHEnv} {name : String} {r : GitRepo} {gh : GitHubState}
    (h : get_existing_github_repo env gh name = none)
    (h2 : ghFind gh name = none) (h3 : env.createOk = true) :
    create_or_get_github_repo env name r gh =
      (some (name, env.cloneUrlOf name), addGithubRemote r (env.cloneUrlOf name),
        { repos := (name, env.cloneUrlOf name) :: gh.repos }) := by
  unfold create_or_get_github_repo
  rw [h, h2, if_neg (by decide), if_pos h3]

theorem create_or_get_createfail {env : GHEnv} {name : String} {r : GitRepo} {gh : GitHubState}
    (h : get_existing_github_repo env gh name = none)
    (h2 : ghFind gh name = none) (h3 : ¬env.createOk = true) :
    create_or_get_github_repo env name r gh = (none, r, gh) := by
  unfold create_or_get_github_repo
  rw [h, h2, if_neg (by decide), if_neg h3]

theorem addGithubRemote_mem {r : GitRepo} {url : String} (h : "github" ∈ remoteNames r) :
    addGithubRemote r url = r := by
  unfold addGithubRemote
  rw [if_pos h]

theorem addGithubRemote_not_mem {r : GitRepo} {url : String} (h : "github" ∉ remoteNames r) :
    remoteNames (addGithubRemote r url) = remoteNames r ++ ["github"] := by
  unfold addGithubRemote
  rw [if_neg h]
  show remoteNames { r with remotes := r.remotes ++ [("github", url)] } =
    remoteNames r ++ ["github"]
  unfold remoteNames
  rw [List.map_append]
  rfl

theorem mem_addGithubRemote (r : GitRepo) (url : String) :
    "github" ∈ remoteNames (addGithubRemote r url) := by
  by_cases h : "github" ∈ remoteNames r
  · rw [addGithubRemote_mem h]
    exact h
  · rw [addGithubRemote_not_mem h]
    simp

theorem count_github_addGithubRemote {r : GitRepo} {url : String}
    (hle : (remoteNames r).count "github" ≤ 1) :
    (remoteNames (addGithubRemote r url)).count "github" = 1 := by
  by_cases h : "github" ∈ remoteNames r
  · rw [addGithubRemote_mem h]
    have h0 : (remoteNames r).count "github" ≠ 0 :=
      fun h0 => (List.count_eq_zero.mp h0) h
    omega
  · rw [addGithubRemote_not_mem h, List.count_append, List.count_eq_zero.mpr h]
    decide

theorem ghFind_cons_self (name u : String) (l : List (String × String)) :
    ghFind { repos := (name, u) :: l } name = some (name, u) := by
  unfold ghFind
  exact List.find?_cons_of_pos _ (by simp)

theorem create_or_get_repo_component (env : GHEnv) (name : String) (r : GitRepo)
    (gh : GitHubState) :
    (create_or_get_github_repo env name r gh).2.1 = r ∨
    ∃ url, (create_or_get_github_repo env name r gh).2.1 = addGithubRemote r url := by
  rcases hgf : ghFind gh name with _ | q
  · have hex : get_existing_github_repo env gh name = none :=
      get_existing_none_of_find_none hgf
    by_cases hc : env.createOk = true
    · rw [create_or_get_create hex hgf hc]
      exact Or.inr ⟨_, rfl⟩
    · rw [create_or_get_createfail hex hgf hc]
      exact Or.inl rfl
  · by_cases hlk : env.lookupOk = true
    · have hex : get_existing_github_repo env gh name = some q := by
        rw [get_existing_of_lookupOk hlk, hgf]
      rw [create_or_get_found hex]
      exact Or.inr ⟨_, rfl⟩
    · have hsome : (ghFind gh name).isSome = true := by
        rw [hgf]
        rfl
      rw [create_or_get_taken (get_existing_of_lookupFail hlk) hsome]
      exact Or.inl rfl

/-! ## Claim C3 -/

/-- C3: provisioning is idempotent.  Two successive calls of
`create_or_get_github_repo` for the same name (with the hosting service
reachable and creation succeeding, and a well-formed repository with at
most one remote of a given name) return the same hosted-repository
identity, the first call returns one, the second call creates nothing
(the account state is unchanged), and the local repository ends with
exactly one remote named `github`. -/
theorem c3_provisioning_idempotent :
    ∀ (env : GHEnv) (name : String) (r : GitRepo) (gh : GitHubState)
      (res1 : Option (String × String)) (r1 : GitRepo) (gh1 : GitHubState)
      (res2 : Option (String × String)) (r2 : GitRepo) (gh2 : GitHubState),
      env.lookupOk = true → env.createOk = true →
      (remoteNames r).count "github" ≤ 1 →
      create_or_get_github_repo env name r gh = (res1, r1, gh1) →
      create_or_get_github_repo env name r1 gh1 = (res2, r2, gh2) →
      res2 = res1 ∧ res1.isSome = true ∧
      (remoteNames r2).count "github" = 1 ∧ gh2 = gh1 := by
  intro env name r gh res1 r1 gh1 res2 r2 gh2 hlk hck hcount hEq1 hEq2
  rcases hgf : ghFind gh name with _ | p
  · have hex : get_existing_github_repo env gh name = none := by
      rw [get_existing_of_lookupOk hlk, hgf]
    rw [create_or_get_create hex hgf hck] at hEq1
    injection hEq1 with e1 e23
    injection e23 with e2 e3
    subst e1
    subst e2
    subst e3
    have hex2 : get_existing_github_repo env
        { repos := (name, env.cloneUrlOf name) :: gh.repos } name =
        some (name, env.cloneUrlOf name) := by
      rw [get_existing_of_lookupOk hlk]
      exact ghFind_cons_self name (env.cloneUrlOf name) gh.repos
    rw [create_or_get_found hex2] at hEq2
    injection hEq2 with f1 f23
    injection f23 with f2 f3
    subst f1
    subst f2
    subst f3
    refine ⟨rfl, rfl, ?_, rfl⟩
    rw [addGithubRemote_mem (mem_addGithubRemote r _)]
    exact count_github_addGithubRemote hcount
  · have hex : get_existing_github_repo env gh name = some p := by
      rw [get_existing_of_lookupOk hlk, hgf]
    rw [create_or_get_found hex] at hEq1
    injection hEq1 with e1 e23
    injection e23 with e2 e3
    subst e1
    subst e2
    subst e3
    rw [create_or_get_found hex] at hEq2
    injection hEq2 with f1 f23
    injection f23 with f2 f3
    subst f1
    subst f2
    subst f3
    refine ⟨rfl, rfl, ?_, rfl⟩
    rw [addGithubRemote_mem (mem_addGithubRemote r _)]
    exact count_github_addGithubRemote hcount

/-- C3 (witness): the theorem applied to a concrete run starting from an
empty account: the repository is created once, found the second time,
and exactly one `github` remote results. -/
theorem c3_provisioning_idempotent_witness :
    (some ("proj", "url-proj") : Option (String × String)) = some ("proj", "url-proj") ∧
    (some ("proj", "url-proj") : Option (String × String)).isSome = true ∧
    (remoteNames { repoNoRemote with remotes := [("github", "url-proj")] }).count "github" = 1 ∧
    ({ repos := [("proj", "url-proj")] } : GitHubState) = { repos := [("proj", "url-proj")] } :=
  c3_provisioning_idempotent ghEnvOk "proj" repoNoRemote { repos := [] }
    (some ("proj", "url-proj")) { repoNoRemote with remotes := [("github", "url-proj")] }
    { repos := [("proj", "url-proj")] }
    (some ("proj", "url-proj")) { repoNoRemote with remotes := [("github", "url-proj")] }
    { repos := [("proj", "url-proj")] }
    rfl rfl (by decide) (by decide) (by decide)

/-! ## Claim C7 -/

/-- C7: a repository that already has a remote named `github` keeps its
remote list unchanged through provisioning, whatever URL the hosting
lookup would yield; and the remote list changes only when no `github`
remote existed. -/
theorem c7_existing_remote_untouched :
    ∀ (env : GHEnv) (name : String) (r : GitRepo) (gh : GitHubState),
      ("github" ∈ remoteNames r →
        (create_or_get_github_repo env name r gh).2.1.remotes = r.remotes) ∧
      ((create_or_get_github_repo env name r gh).2.1.remotes ≠ r.remotes →
        "github" ∉ remoteNames r) := by
  intro env name r gh
  have key : "github" ∈ remoteNames r →
      (create_or_get_github_repo env name r gh).2.1.remotes = r.remotes := by
    intro hmem
    rcases create_or_get_repo_component env name r gh with h | ⟨url, h⟩
    · rw [h]
    · rw [h, addGithubRemote_mem hmem]
  exact ⟨key, fun hne hmem => hne (key hmem)⟩

/-- C7 (witness): the theorem applied to a repository whose `github`
remote points at `urlB` while the hosting service would assign
`url-proj`: the remote list is untouched. -/
theorem c7_existing_remote_untouched_witness :
    (create_or_get_github_repo ghEnvOk "proj" repoBase { repos := [] }).2.1.remotes =
      repoBase.remotes :=
  (c7_existing_remote_untouched ghEnvOk "proj" repoBase { repos := [] }).1 (by decide)
